import Mathlib

/-
Verification of the retail inventory / order management core.

The external store (Supabase tables `customers`, `products`, `orders`,
`order_items`) is modelled as an explicit `Store` value; every DAO call is a
pure function on it.  Generated ids and `order_date` timestamps are modelled
by monotone counters.  Because the store is non-transactional, any mutating
round trip (insert/update/delete) may fail; this is modelled by a `Faults`
record injected into `create_order`, and a faulted call raises before having
any effect on the store.  `create_order` additionally returns a trace of the
mutating/compensating actions it attempted, so that compensation behaviour is
observable.

Prices (Python floats in the source) are modelled as integers (think cents):
the claims under verification only relate sums and products of captured price
values to each other, never division or rounding, so the embedding is faithful
on that fragment while keeping every definition kernel-computable.
-/

namespace Retail

structure Customer where
  cust_id : Nat
  name : String
  email : String
  phone : String
  city : Option String
deriving Repr, DecidableEq

structure Product where
  prod_id : Nat
  name : String
  price : Int
  stock : Int
deriving Repr, DecidableEq

structure Order where
  order_id : Nat
  cust_id : Nat
  total_amount : Int
  status : String
  order_date : Nat
deriving Repr, DecidableEq

structure OrderItem where
  item_id : Nat
  order_id : Nat
  prod_id : Nat
  quantity : Int
  price : Int
deriving Repr, DecidableEq

/-- The external store: the four tables plus the id/date generators. -/
structure Store where
  customers : List Customer
  products : List Product
  orders : List Order
  order_items : List OrderItem
  next_order_id : Nat
  next_item_id : Nat
  next_date : Nat
deriving Repr, DecidableEq

/-- Well-formedness of a store: every generated id / date already present is
below the corresponding generator, so freshly inserted rows are new and the
`order_date desc limit 1` re-read finds the row just inserted. -/
def Store.wf (s : Store) : Bool :=
  s.orders.all (fun o => o.order_id < s.next_order_id && o.order_date < s.next_date) &&
  s.order_items.all (fun it => it.item_id < s.next_item_id && it.order_id < s.next_order_id)

namespace product_dao

/-- Modelled from the spec: `product_dao.get_product_by_id` is not among the
provided source files (only its callers are).  Per the spec's table contract
it is `select("products").eq("prod_id", pid).limit(1)`. -/
def get_product_by_id (s : Store) (pid : Nat) : Option Product :=
  s.products.find? (fun p => p.prod_id == pid)

/-- The two field updates the services actually issue through
`product_dao.update_product`. -/
inductive ProductFields
  | setStock (v : Int)
  | setPrice (v : Int)
deriving Repr, DecidableEq

/-- Modelled from the spec: `product_dao.update_product(prod_id, fields)` is
`update("products", fields).eq("prod_id", pid)`. -/
def update_product (s : Store) (pid : Nat) (f : ProductFields) : Store :=
  { s with products := s.products.map (fun p =>
      if p.prod_id == pid then
        match f with
        | .setStock v => { p with stock := v }
        | .setPrice v => { p with price := v }
      else p) }

end product_dao

/-- Stock of a product as an observer (first row matching `prod_id`). -/
def getStock (s : Store) (pid : Nat) : Option Int :=
  (product_dao.get_product_by_id s pid).map (fun p => p.stock)

namespace customer_dao

/-- `customer_dao.get_customer_by_id`: select by `cust_id`, limit 1. -/
def get_customer_by_id (s : Store) (cid : Nat) : Option Customer :=
  s.customers.find? (fun c => c.cust_id == cid)

/-- `customer_dao.delete_customer`: read the row first, then delete by
`cust_id`, returning the pre-deletion snapshot. -/
def delete_customer (s : Store) (cid : Nat) : Option Customer × Store :=
  let row := s.customers.find? (fun c => c.cust_id == cid)
  (row, { s with customers := s.customers.filter (fun c => c.cust_id != cid) })

/-- `customer_dao.list_customers`: the source executes the select
(ordered by `cust_id`, limited) but its body has no return statement, so the
Python function returns `None`; the query result is discarded. -/
def list_customers (s : Store) (limit : Nat) : Option (List Customer) :=
  let _resp := s.customers.take limit
  none

end customer_dao

namespace order_dao

/-- Pick the row the `order("order_date", desc=True).limit(1)` read returns:
the row with the greatest `order_date` (keeping the earlier row on ties). -/
def latest_by_date (rows : List Order) : Option Order :=
  rows.foldl (fun acc o =>
    match acc with
    | none => some o
    | some a => if a.order_date < o.order_date then some o else some a) none

/-- `order_dao.create_order_record`: insert the payload, then re-read the most
recent order for this customer with the same total (best-effort fetch of the
generated row). -/
def create_order_record (s : Store) (cid : Nat) (total : Int) (status : String) :
    Option Order × Store :=
  let row : Order := ⟨s.next_order_id, cid, total, status, s.next_date⟩
  let s1 : Store := { s with orders := s.orders ++ [row],
                             next_order_id := s.next_order_id + 1,
                             next_date := s.next_date + 1 }
  (latest_by_date (s1.orders.filter (fun o => o.cust_id == cid && o.total_amount == total)), s1)

/-- A validated order line as built by the service: prod_id, quantity and the
captured price. -/
structure LineItem where
  prod_id : Nat
  quantity : Int
  price : Int
deriving Repr, DecidableEq

/-- The rows a batch insert into `order_items` produces: sequential generated
item ids starting at `iid`, all attached to order `oid`. -/
def build_item_rows (oid : Nat) (iid : Nat) : List LineItem → List OrderItem
  | [] => []
  | l :: rest => ⟨iid, oid, l.prod_id, l.quantity, l.price⟩ :: build_item_rows oid (iid + 1) rest

/-- `order_dao.create_order_items`: insert all payloads in one batch, then
re-read the inserted items by `order_id`. -/
def create_order_items (s : Store) (oid : Nat) (items : List LineItem) :
    List OrderItem × Store :=
  let rows := build_item_rows oid s.next_item_id items
  let s1 : Store := { s with order_items := s.order_items ++ rows,
                             next_item_id := s.next_item_id + items.length }
  (s1.order_items.filter (fun r => r.order_id == oid), s1)

/-- `order_dao.get_order`: fetch the order row, then attach its items. -/
def get_order (s : Store) (oid : Nat) : Option (Order × List OrderItem) :=
  match s.orders.find? (fun o => o.order_id == oid) with
  | none => none
  | some o => some (o, s.order_items.filter (fun r => r.order_id == oid))

/-- `order_dao.list_orders_by_customer`: select by `cust_id` ordered by
`order_date` descending (dates increase with insertion, so descending order is
the reverse of insertion order). -/
def list_orders_by_customer (s : Store) (cid : Nat) : List Order :=
  (s.orders.filter (fun o => o.cust_id == cid)).reverse

/-- `order_dao.update_order_status`: update the status, then re-read the row. -/
def update_order_status (s : Store) (oid : Nat) (status : String) :
    Option Order × Store :=
  let s1 : Store := { s with orders := s.orders.map (fun o =>
      if o.order_id == oid then { o with status := status } else o) }
  (s1.orders.find? (fun o => o.order_id == oid), s1)

end order_dao

namespace order_service

/-- Identifies which mutating store call inside the try block raised (the
original cause wrapped into "Failed to create order: {e}").  `orderRowMissing`
is the `created_order["order_id"]` subscript on a `None` fetch; `prodMissing i`
is the `prod.get` on a `None` product during the decrement loop. -/
inductive MutStep
  | insertOrder
  | orderRowMissing
  | insertItems
  | prodMissing (i : Nat)
  | decrementStock (i : Nat)
deriving Repr, DecidableEq

/-- The `OrderError` values `create_order` raises. -/
inductive OrderError
  | customerNotFound
  | productNotFound (pid : Nat)
  | quantityNotPositive
  | outOfStock (name : String) (available required : Int)
  | createFailed (cause : MutStep)
deriving Repr, DecidableEq

/-- Mutating store calls attempted by `create_order` (whether or not they
raised), in order: the observable action trace. -/
inductive Act
  | insertOrderAct
  | insertItemsAct
  | decrementStockAct (pid : Nat)
  | restoreStockAct (pid : Nat)
  | deleteItemAct (iid : Nat)
  | deleteOrderAct (oid : Nat)
deriving Repr, DecidableEq

/-- Fault injection for the external store: which mutating round trips raise.
Loop entries are iteration indices.  A faulted call raises before having any
effect on the store. -/
structure Faults where
  insertOrder : Bool
  insertItems : Bool
  decrementStock : List Nat
  restoreStock : List Nat
  deleteItem : List Nat
  deleteOrder : Bool
deriving Repr, DecidableEq

def noFaults : Faults := ⟨false, false, [], [], [], false⟩

/-- A requested order line: `{"prod_id": ..., "quantity": ...}`. -/
structure ReqItem where
  prod_id : Nat
  quantity : Int
deriving Repr, DecidableEq

open order_dao (LineItem)

/-- The validation pass of `create_order`: resolve each product, check the
quantity is positive and the stock covers it, and capture the current price. -/
def validate_items (s : Store) : List ReqItem → Except OrderError (List LineItem)
  | [] => .ok []
  | it :: rest =>
    match product_dao.get_product_by_id s it.prod_id with
    | none => .error (.productNotFound it.prod_id)
    | some prod =>
      if it.quantity ≤ 0 then .error .quantityNotPositive
      else if prod.stock < it.quantity then
        .error (.outOfStock prod.name prod.stock it.quantity)
      else
        match validate_items s rest with
        | .error e => .error e
        | .ok ls => .ok (⟨prod.prod_id, it.quantity, prod.price⟩ :: ls)

/-- `total = sum(it["quantity"] * it["price"] for it in order_items)`. -/
def order_total (ls : List LineItem) : Int :=
  (ls.map (fun l => l.quantity * l.price)).sum

/-- The stock-decrement loop: for each line, re-read the product, write back
`stock - quantity`, and record `(prod_id, quantity)` in the rollback ledger.
Returns the new store, the attempted actions, the ledger of completed
decrements, and the raised cause if an iteration failed. -/
def decrement_loop (fd : List Nat) (s : Store) (i : Nat) :
    List LineItem → Store × List Act × List (Nat × Int) × Option MutStep
  | [] => (s, [], [], none)
  | l :: rest =>
    match product_dao.get_product_by_id s l.prod_id with
    | none => (s, [], [], some (.prodMissing i))
    | some prod =>
      if i ∈ fd then
        (s, [Act.decrementStockAct l.prod_id], [], some (.decrementStock i))
      else
        let s1 := product_dao.update_product s l.prod_id (.setStock (prod.stock - l.quantity))
        let r := decrement_loop fd s1 (i + 1) rest
        (r.1, Act.decrementStockAct l.prod_id :: r.2.1, (l.prod_id, l.quantity) :: r.2.2.1, r.2.2.2)

/-- The stock-restore pass of the rollback: for each ledger entry, re-read the
product and, if it exists, write back `stock + delta`.  Returns `false` when a
restore update raised (which aborts the rest of the rollback). -/
def restore_loop (fr : List Nat) (s : Store) (i : Nat) :
    List (Nat × Int) → Store × List Act × Bool
  | [] => (s, [], true)
  | (pid, d) :: rest =>
    match product_dao.get_product_by_id s pid with
    | none => restore_loop fr s (i + 1) rest
    | some prod =>
      if i ∈ fr then (s, [Act.restoreStockAct pid], false)
      else
        let s1 := product_dao.update_product s pid (.setStock (prod.stock + d))
        let r := restore_loop fr s1 (i + 1) rest
        (r.1, Act.restoreStockAct pid :: r.2.1, r.2.2)

/-- The item-delete pass of the rollback: delete each created item by
`item_id`.  Returns `false` when a delete raised. -/
def delete_items_loop (fdel : List Nat) (s : Store) (i : Nat) :
    List OrderItem → Store × List Act × Bool
  | [] => (s, [], true)
  | it :: rest =>
    if i ∈ fdel then (s, [Act.deleteItemAct it.item_id], false)
    else
      let s1 : Store := { s with order_items := s.order_items.filter (fun r => r.item_id != it.item_id) }
      let r := delete_items_loop fdel s1 (i + 1) rest
      (r.1, Act.deleteItemAct it.item_id :: r.2.1, r.2.2)

/-- The best-effort rollback of `create_order`.  All three passes run inside a
single try/except, so a raise in any pass ends the whole rollback (and is
swallowed by the caller). -/
def compensate (f : Faults) (s : Store) (ledger : List (Nat × Int))
    (created_items : List OrderItem) (created_order : Option Order) : Store × List Act :=
  let r1 := restore_loop f.restoreStock s 0 ledger
  if r1.2.2 then
    let r2 :=
      if created_items.isEmpty then (r1.1, ([] : List Act), true)
      else delete_items_loop f.deleteItem r1.1 0 created_items
    if r2.2.2 then
      match created_order with
      | none => (r2.1, r1.2.1 ++ r2.2.1)
      | some o =>
        if f.deleteOrder then (r2.1, r1.2.1 ++ r2.2.1 ++ [Act.deleteOrderAct o.order_id])
        else ({ r2.1 with orders := r2.1.orders.filter (fun x => x.order_id != o.order_id) },
              r1.2.1 ++ r2.2.1 ++ [Act.deleteOrderAct o.order_id])
    else (r2.1, r1.2.1 ++ r2.2.1)
  else (r1.1, r1.2.1)

/-- The composed dict returned on success: the fetched order row with `items`
attached and `total_amount` (re)set to the computed total. -/
structure ComposedOrder where
  order_id : Nat
  cust_id : Nat
  status : String
  order_date : Nat
  total_amount : Int
  items : List OrderItem
deriving Repr, DecidableEq

deriving instance DecidableEq for Except

/-- Outcome of one `create_order` call: the returned value or raised error,
the final store, and the trace of attempted mutating actions. -/
structure RunResult where
  result : Except OrderError ComposedOrder
  store : Store
  acts : List Act
deriving Repr, DecidableEq

/-- `order_service.create_order`: validate customer and lines, compute the
total with captured prices, then create the order record, create the item
rows, and decrement stocks; on any failure in the mutating phase, run the
best-effort rollback and raise the original cause wrapped in an
`OrderError`. -/
def create_order (f : Faults) (s : Store) (customer_id : Nat) (items : List ReqItem) :
    RunResult :=
  match customer_dao.get_customer_by_id s customer_id with
  | none => ⟨.error .customerNotFound, s, []⟩
  | some _ =>
    match validate_items s items with
    | .error e => ⟨.error e, s, []⟩
    | .ok order_items =>
      let total := order_total order_items
      if f.insertOrder then
        let c := compensate f s [] [] none
        ⟨.error (.createFailed .insertOrder), c.1, Act.insertOrderAct :: c.2⟩
      else
        match order_dao.create_order_record s customer_id total "PLACED" with
        | (none, s1) =>
          let c := compensate f s1 [] [] none
          ⟨.error (.createFailed .orderRowMissing), c.1, Act.insertOrderAct :: c.2⟩
        | (some created_order, s1) =>
          if f.insertItems then
            let c := compensate f s1 [] [] (some created_order)
            ⟨.error (.createFailed .insertItems), c.1,
             Act.insertOrderAct :: Act.insertItemsAct :: c.2⟩
          else
            let ci := order_dao.create_order_items s1 created_order.order_id order_items
            let d := decrement_loop f.decrementStock ci.2 0 order_items
            match d.2.2.2 with
            | some cause =>
              let c := compensate f d.1 d.2.2.1 ci.1 (some created_order)
              ⟨.error (.createFailed cause), c.1,
               Act.insertOrderAct :: Act.insertItemsAct :: (d.2.1 ++ c.2)⟩
            | none =>
              ⟨.ok ⟨created_order.order_id, created_order.cust_id, created_order.status,
                    created_order.order_date, total, ci.1⟩, d.1,
               Act.insertOrderAct :: Act.insertItemsAct :: d.2.1⟩

/-- The `OrderError` cases `cancel_order` raises (store failures during
cancellation are not modelled; no claim depends on them). -/
inductive CancelError
  | orderNotFound
  | invalidState
deriving Repr, DecidableEq

/-- `order_service.cancel_order`: fetch the order with items, require PLACED,
add each item's quantity back onto the product's current stock, then update
the status to CANCELLED and return the re-read row. -/
def cancel_order (s : Store) (order_id : Nat) : Except CancelError (Option Order) × Store :=
  match order_dao.get_order s order_id with
  | none => (.error .orderNotFound, s)
  | some (ord, its) =>
    if ord.status != "PLACED" then (.error .invalidState, s)
    else
      let s1 := its.foldl (fun st it =>
        match product_dao.get_product_by_id st it.prod_id with
        | none => st
        | some prod => product_dao.update_product st it.prod_id (.setStock (prod.stock + it.quantity))) s
      let u := order_dao.update_order_status s1 order_id "CANCELLED"
      (.ok u.1, u.2)

end order_service

namespace customer_service

/-- The `CustomerError` hierarchy cases `remove_customer` raises. -/
inductive CustomerErr
  | notFound
  | deleteConflict (count : Nat)
  | deleteFailed
deriving Repr, DecidableEq

/-- `customer_service.remove_customer`: require the customer to exist, raise a
delete error when the customer owns any order, otherwise delete and return the
pre-deletion row. -/
def remove_customer (s : Store) (cust_id : Nat) : Except CustomerErr Customer × Store :=
  match customer_dao.get_customer_by_id s cust_id with
  | none => (.error .notFound, s)
  | some _ =>
    let orders := order_dao.list_orders_by_customer s cust_id
    if orders.isEmpty then
      let d := customer_dao.delete_customer s cust_id
      match d.1 with
      | none => (.error .deleteFailed, d.2)
      | some row => (.ok row, d.2)
    else (.error (.deleteConflict orders.length), s)

/-- `customer_service.list_customers`: returns whatever the DAO returns. -/
def list_customers (s : Store) (limit : Nat) : Option (List Customer) :=
  customer_dao.list_customers s limit

end customer_service

/-! ### Helper observers and lemma kit -/

/-- Net quantity recorded against a product in a rollback ledger. -/
def net (L : List (Nat × Int)) (pid : Nat) : Int :=
  ((L.filter (fun pq => pq.1 == pid)).map Prod.snd).sum

/-- Net quantity of a product across a list of order items. -/
def netItems (its : List OrderItem) (pid : Nat) : Int :=
  ((its.filter (fun it => it.prod_id == pid)).map (fun it => it.quantity)).sum

theorem net_nil (pid : Nat) : net [] pid = 0 := rfl

theorem net_cons (p : Nat) (d : Int) (L : List (Nat × Int)) (pid : Nat) :
    net ((p, d) :: L) pid = (if p == pid then d else 0) + net L pid := by
  by_cases h : p == pid <;> simp [net, List.filter_cons, h]

theorem netItems_cons (it : OrderItem) (L : List OrderItem) (pid : Nat) :
    netItems (it :: L) pid = (if it.prod_id == pid then it.quantity else 0) + netItems L pid := by
  by_cases h : it.prod_id == pid <;> simp [netItems, List.filter_cons, h]

/-- `find?` commutes with a `map` whose function preserves the predicate. -/
theorem find?_map_of_pred {α : Type} (f : α → α) (p : α → Bool)
    (h : ∀ x, p (f x) = p x) : ∀ l : List α, (l.map f).find? p = (l.find? p).map f := by
  intro l
  induction l with
  | nil => rfl
  | cons a l ih =>
    cases hpa : p a with
    | true => simp [List.find?_cons, h a, hpa]
    | false => simp [List.find?_cons, h a, hpa, ih]

theorem update_product_pred (pid : Nat) (fld : product_dao.ProductFields) (q : Nat) :
    ∀ x : Product,
      ((if x.prod_id == pid then
          match fld with
          | .setStock v => { x with stock := v }
          | .setPrice v => { x with price := v }
        else x).prod_id == q) = (x.prod_id == q) := by
  intro x
  by_cases h : x.prod_id == pid
  · cases fld <;> simp [h]
  · simp [h]

/-- Reading a product after `update_product`. -/
theorem get_product_update (s : Store) (pid : Nat) (fld : product_dao.ProductFields) (q : Nat) :
    product_dao.get_product_by_id (product_dao.update_product s pid fld) q =
      (product_dao.get_product_by_id s q).map (fun x =>
        if x.prod_id == pid then
          match fld with
          | .setStock v => { x with stock := v }
          | .setPrice v => { x with price := v }
        else x) := by
  unfold product_dao.get_product_by_id product_dao.update_product
  exact find?_map_of_pred _ _ (update_product_pred pid fld q) s.products

/-- A found product's id matches the query. -/
theorem get_product_id (s : Store) (q : Nat) (p : Product)
    (h : product_dao.get_product_by_id s q = some p) : p.prod_id = q := by
  have := List.find?_some h
  simpa using this

/-- Stock after a `setStock` write, pointwise. -/
theorem getStock_setStock (s : Store) (pid : Nat) (v : Int) (q : Nat) :
    getStock (product_dao.update_product s pid (.setStock v)) q =
      if q = pid then (getStock s q).map (fun _ => v) else getStock s q := by
  unfold getStock
  rw [get_product_update]
  cases hf : product_dao.get_product_by_id s q with
  | none => simp
  | some p =>
    have hid : p.prod_id = q := get_product_id s q p hf
    by_cases h : q = pid
    · subst h
      simp [hid]
    · simp [hid, h, Ne.symm h]

/-- A `setPrice` write does not change any stock. -/
theorem getStock_setPrice (s : Store) (pid : Nat) (v : Int) (q : Nat) :
    getStock (product_dao.update_product s pid (.setPrice v)) q = getStock s q := by
  unfold getStock
  rw [get_product_update]
  cases hf : product_dao.get_product_by_id s q with
  | none => simp
  | some p =>
    simp only [Option.map_some']
    congr 1
    split <;> rfl

/-- `update_product` preserves product existence. -/
theorem get_product_update_isSome (s : Store) (pid : Nat) (fld : product_dao.ProductFields) (q : Nat) :
    (product_dao.get_product_by_id (product_dao.update_product s pid fld) q).isSome =
      (product_dao.get_product_by_id s q).isSome := by
  rw [get_product_update]
  cases product_dao.get_product_by_id s q <;> rfl

theorem wf_orders (s : Store) (hwf : s.wf = true) :
    ∀ o ∈ s.orders, o.order_id < s.next_order_id ∧ o.order_date < s.next_date := by
  simp only [Store.wf, Bool.and_eq_true, List.all_eq_true, decide_eq_true_eq] at hwf
  exact hwf.1

theorem wf_items (s : Store) (hwf : s.wf = true) :
    ∀ r ∈ s.order_items, r.item_id < s.next_item_id ∧ r.order_id < s.next_order_id := by
  simp only [Store.wf, Bool.and_eq_true, List.all_eq_true, decide_eq_true_eq] at hwf
  exact hwf.2

theorem latest_by_date_aux (x : Order) :
    ∀ (rows : List Order) (acc : Option Order),
      (∀ o ∈ rows, o.order_date < x.order_date) →
      (∀ a, acc = some a → a.order_date < x.order_date) →
      List.foldl (fun acc o =>
        match acc with
        | none => some o
        | some a => if a.order_date < o.order_date then some o else some a) acc (rows ++ [x]) =
        some x := by
  intro rows
  induction rows with
  | nil =>
    intro acc _ hacc
    cases acc with
    | none => rfl
    | some a =>
      simp only [List.nil_append, List.foldl_cons, List.foldl_nil]
      rw [if_pos (hacc a rfl)]
  | cons r rows ih =>
    intro acc hrows hacc
    simp only [List.cons_append, List.foldl_cons]
    refine ih _ (fun o ho => hrows o (List.mem_cons_of_mem r ho)) ?_
    intro a ha
    cases acc with
    | none =>
      simp only at ha
      cases ha
      exact hrows r (List.mem_cons_self r rows)
    | some b =>
      simp only at ha
      by_cases hb : b.order_date < r.order_date
      · rw [if_pos hb] at ha
        cases ha
        exact hrows r (List.mem_cons_self r rows)
      · rw [if_neg hb] at ha
        cases ha
        exact hacc a rfl

theorem latest_by_date_append (rows : List Order) (x : Order)
    (h : ∀ o ∈ rows, o.order_date < x.order_date) :
    order_dao.latest_by_date (rows ++ [x]) = some x := by
  unfold order_dao.latest_by_date
  exact latest_by_date_aux x rows none h (by intro a ha; cases ha)

/-- With a well-formed store, the best-effort re-read in `create_order_record`
returns exactly the row just inserted. -/
theorem create_order_record_wf (s : Store) (cid : Nat) (total : Int) (st : String)
    (hwf : s.wf = true) :
    order_dao.create_order_record s cid total st =
      (some ⟨s.next_order_id, cid, total, st, s.next_date⟩,
       { s with orders := s.orders ++ [⟨s.next_order_id, cid, total, st, s.next_date⟩],
                next_order_id := s.next_order_id + 1, next_date := s.next_date + 1 }) := by
  unfold order_dao.create_order_record
  simp only [Prod.mk.injEq]
  refine ⟨?_, trivial⟩
  rw [List.filter_append]
  have hrow : (List.filter (fun o => o.cust_id == cid && o.total_amount == total)
      [(⟨s.next_order_id, cid, total, st, s.next_date⟩ : Order)]) =
      [⟨s.next_order_id, cid, total, st, s.next_date⟩] := by
    simp
  rw [hrow]
  refine latest_by_date_append _ _ ?_
  intro o ho
  exact (wf_orders s hwf o (List.mem_of_mem_filter ho)).2

theorem build_item_rows_order_id (oid : Nat) :
    ∀ (ls : List order_dao.LineItem) (iid : Nat) (r : OrderItem),
      r ∈ order_dao.build_item_rows oid iid ls → r.order_id = oid := by
  intro ls
  induction ls with
  | nil => intro iid r hr; cases hr
  | cons l ls ih =>
    intro iid r hr
    rcases List.mem_cons.mp hr with h | h
    · rw [h]
    · exact ih (iid + 1) r h

theorem build_item_rows_item_id_ge (oid : Nat) :
    ∀ (ls : List order_dao.LineItem) (iid : Nat) (r : OrderItem),
      r ∈ order_dao.build_item_rows oid iid ls → iid ≤ r.item_id := by
  intro ls
  induction ls with
  | nil => intro iid r hr; cases hr
  | cons l ls ih =>
    intro iid r hr
    rcases List.mem_cons.mp hr with h | h
    · rw [h]
    · exact Nat.le_of_succ_le (ih (iid + 1) r h)

theorem build_item_rows_fields (oid : Nat) :
    ∀ (ls : List order_dao.LineItem) (iid : Nat) (r : OrderItem),
      r ∈ order_dao.build_item_rows oid iid ls →
      ∃ l ∈ ls, r.prod_id = l.prod_id ∧ r.quantity = l.quantity ∧ r.price = l.price := by
  intro ls
  induction ls with
  | nil => intro iid r hr; cases hr
  | cons l ls ih =>
    intro iid r hr
    rcases List.mem_cons.mp hr with h | h
    · exact ⟨l, List.mem_cons_self l ls, by rw [h], by rw [h], by rw [h]⟩
    · rcases ih (iid + 1) r h with ⟨l', hl', hfields⟩
      exact ⟨l', List.mem_cons_of_mem l hl', hfields⟩

theorem build_item_rows_sum (oid : Nat) :
    ∀ (ls : List order_dao.LineItem) (iid : Nat),
      ((order_dao.build_item_rows oid iid ls).map (fun r => r.quantity * r.price)).sum =
        order_service.order_total ls := by
  intro ls
  induction ls with
  | nil => intro iid; rfl
  | cons l ls ih =>
    intro iid
    simp only [order_dao.build_item_rows, List.map_cons, List.sum_cons, ih (iid + 1)]
    rfl

/-- When no pre-existing item row carries the new order id, the re-read in
`create_order_items` returns exactly the inserted rows. -/
theorem create_order_items_eq (s : Store) (oid : Nat) (items : List order_dao.LineItem)
    (hold : ∀ r ∈ s.order_items, (r.order_id == oid) = false) :
    order_dao.create_order_items s oid items =
      (order_dao.build_item_rows oid s.next_item_id items,
       { s with order_items := s.order_items ++ order_dao.build_item_rows oid s.next_item_id items,
                next_item_id := s.next_item_id + items.length }) := by
  unfold order_dao.create_order_items
  simp only [Prod.mk.injEq]
  refine ⟨?_, trivial⟩
  rw [List.filter_append]
  have h1 : s.order_items.filter (fun r => r.order_id == oid) = [] := by
    rw [List.filter_eq_nil_iff]
    intro r hr
    simp [hold r hr]
  have h2 : (order_dao.build_item_rows oid s.next_item_id items).filter
      (fun r => r.order_id == oid) = order_dao.build_item_rows oid s.next_item_id items := by
    rw [List.filter_eq_self]
    intro r hr
    simp [build_item_rows_order_id oid items s.next_item_id r hr]
  rw [h1, h2, List.nil_append]

theorem getStock_eq_some (s : Store) (p : Nat) (prod : Product)
    (h : product_dao.get_product_by_id s p = some prod) : getStock s p = some prod.stock := by
  unfold getStock
  rw [h]
  rfl

theorem getStock_eq_none (s : Store) (p : Nat)
    (h : product_dao.get_product_by_id s p = none) : getStock s p = none := by
  unfold getStock
  rw [h]
  rfl

/-- With no restore fault injected, the stock-restore pass completes, adds the
ledger's net quantity back onto every product's stock, touches nothing but
products, and attempts only restore actions. -/
theorem restore_loop_nofault :
    ∀ (ledger : List (Nat × Int)) (s : Store) (i : Nat),
      (order_service.restore_loop [] s i ledger).2.2 = true ∧
      (∀ pid, getStock (order_service.restore_loop [] s i ledger).1 pid =
        (getStock s pid).map (fun x => x + net ledger pid)) ∧
      (order_service.restore_loop [] s i ledger).1.customers = s.customers ∧
      (order_service.restore_loop [] s i ledger).1.orders = s.orders ∧
      (order_service.restore_loop [] s i ledger).1.order_items = s.order_items ∧
      (order_service.restore_loop [] s i ledger).1.next_order_id = s.next_order_id ∧
      (order_service.restore_loop [] s i ledger).1.next_item_id = s.next_item_id ∧
      (order_service.restore_loop [] s i ledger).1.next_date = s.next_date ∧
      (∀ a ∈ (order_service.restore_loop [] s i ledger).2.1,
        ∃ p, a = order_service.Act.restoreStockAct p) := by
  intro ledger
  induction ledger with
  | nil =>
    intro s i
    refine ⟨rfl, ?_, rfl, rfl, rfl, rfl, rfl, rfl, ?_⟩
    · intro pid
      rw [show order_service.restore_loop [] s i [] = (s, [], true) from rfl]
      cases h : getStock s pid <;> simp [net, h]
    · intro a ha
      cases ha
  | cons pd rest ih =>
    intro s i
    obtain ⟨p, d⟩ := pd
    cases hp : product_dao.get_product_by_id s p with
    | none =>
      have hres : order_service.restore_loop [] s i ((p, d) :: rest) =
          order_service.restore_loop [] s (i + 1) rest := by
        simp only [order_service.restore_loop, hp]
      rw [hres]
      obtain ⟨h1, h2, h3, h4, h5, h6, h7, h8, h9⟩ := ih s (i + 1)
      refine ⟨h1, ?_, h3, h4, h5, h6, h7, h8, h9⟩
      intro pid
      by_cases hpp : p = pid
      · subst hpp
        rw [h2 p, getStock_eq_none s p hp]
        rfl
      · rw [h2 pid, net_cons]
        have : (p == pid) = false := by simp [hpp]
        rw [this]
        simp
    | some prod =>
      have hnm : i ∉ ([] : List Nat) := List.not_mem_nil i
      have hres : order_service.restore_loop [] s i ((p, d) :: rest) =
          ((order_service.restore_loop []
              (product_dao.update_product s p (.setStock (prod.stock + d))) (i + 1) rest).1,
           order_service.Act.restoreStockAct p ::
             (order_service.restore_loop []
               (product_dao.update_product s p (.setStock (prod.stock + d))) (i + 1) rest).2.1,
           (order_service.restore_loop []
             (product_dao.update_product s p (.setStock (prod.stock + d))) (i + 1) rest).2.2) := by
        simp only [order_service.restore_loop, hp, if_neg hnm]
      rw [hres]
      obtain ⟨h1, h2, h3, h4, h5, h6, h7, h8, h9⟩ :=
        ih (product_dao.update_product s p (.setStock (prod.stock + d))) (i + 1)
      refine ⟨h1, ?_, by rw [h3]; rfl, by rw [h4]; rfl, by rw [h5]; rfl,
        by rw [h6]; rfl, by rw [h7]; rfl, by rw [h8]; rfl, ?_⟩
      · intro pid
        rw [h2 pid, getStock_setStock, net_cons]
        by_cases hpp : pid = p
        · subst hpp
          rw [if_pos rfl, getStock_eq_some s pid prod hp]
          simp [Int.add_assoc]
        · rw [if_neg hpp]
          have : (p == pid) = false := beq_eq_false_iff_ne.mpr (Ne.symm hpp)
          rw [this]
          simp
      · intro a ha
        rcases List.mem_cons.mp ha with h | h
        · exact ⟨p, h⟩
        · exact h9 a h

/-- With the decrement update of iteration `k` injected to fail, the decrement
loop performs exactly the first `k - i` decrements, records them in the
ledger, attempts the `k`-th and stops with the `decrementStock k` cause. -/
theorem decrement_loop_fault (k : Nat) :
    ∀ (lines : List order_dao.LineItem) (s : Store) (i : Nat),
      i ≤ k → k - i < lines.length →
      (∀ l ∈ lines, (product_dao.get_product_by_id s l.prod_id).isSome = true) →
      (order_service.decrement_loop [k] s i lines).2.2.2 =
        some (.decrementStock k) ∧
      (order_service.decrement_loop [k] s i lines).2.2.1 =
        (lines.take (k - i)).map (fun l => (l.prod_id, l.quantity)) ∧
      (∀ pid, getStock (order_service.decrement_loop [k] s i lines).1 pid =
        (getStock s pid).map (fun x =>
          x - net ((lines.take (k - i)).map (fun l => (l.prod_id, l.quantity))) pid)) ∧
      (order_service.decrement_loop [k] s i lines).1.customers = s.customers ∧
      (order_service.decrement_loop [k] s i lines).1.orders = s.orders ∧
      (order_service.decrement_loop [k] s i lines).1.order_items = s.order_items ∧
      (order_service.decrement_loop [k] s i lines).1.next_order_id = s.next_order_id ∧
      (order_service.decrement_loop [k] s i lines).1.next_item_id = s.next_item_id ∧
      (order_service.decrement_loop [k] s i lines).1.next_date = s.next_date ∧
      (order_service.decrement_loop [k] s i lines).2.1 =
        (lines.take (k - i + 1)).map (fun l => order_service.Act.decrementStockAct l.prod_id) := by
  intro lines
  induction lines with
  | nil =>
    intro s i _ hlen _
    exact absurd hlen (Nat.not_lt_zero _)
  | cons l rest ih =>
    intro s i hik hlen hmem
    have hl : (product_dao.get_product_by_id s l.prod_id).isSome = true :=
      hmem l (List.mem_cons_self l rest)
    obtain ⟨prod, hp⟩ := Option.isSome_iff_exists.mp hl
    by_cases heq : i = k
    · subst heq
      have hin : i ∈ [i] := List.mem_singleton.mpr rfl
      have hres : order_service.decrement_loop [i] s i (l :: rest) =
          (s, [order_service.Act.decrementStockAct l.prod_id], [],
           some (.decrementStock i)) := by
        simp only [order_service.decrement_loop, hp, if_pos hin]
      rw [hres]
      have h0 : i - i = 0 := Nat.sub_self i
      refine ⟨rfl, by rw [h0]; rfl, ?_, rfl, rfl, rfl, rfl, rfl, rfl, by rw [h0]; rfl⟩
      intro pid
      rw [h0]
      cases h : getStock s pid <;> simp [net, h]
    · have hlt : i < k := Nat.lt_of_le_of_ne hik heq
      have hnin : i ∉ [k] := by
        intro hmem'
        exact heq (List.mem_singleton.mp hmem')
      set s1 := product_dao.update_product s l.prod_id (.setStock (prod.stock - l.quantity)) with hs1
      have hres : order_service.decrement_loop [k] s i (l :: rest) =
          ((order_service.decrement_loop [k] s1 (i + 1) rest).1,
           order_service.Act.decrementStockAct l.prod_id ::
             (order_service.decrement_loop [k] s1 (i + 1) rest).2.1,
           (l.prod_id, l.quantity) :: (order_service.decrement_loop [k] s1 (i + 1) rest).2.2.1,
           (order_service.decrement_loop [k] s1 (i + 1) rest).2.2.2) := by
        simp only [order_service.decrement_loop, hp, if_neg hnin]
      have hmem1 : ∀ x ∈ rest, (product_dao.get_product_by_id s1 x.prod_id).isSome = true := by
        intro x hx
        rw [hs1, get_product_update_isSome]
        exact hmem x (List.mem_cons_of_mem l hx)
      have hlen1 : k - (i + 1) < rest.length := by
        simp only [List.length_cons] at hlen
        omega
      obtain ⟨h1, h2, h3, h4, h5, h6, h7, h8, h9, h10⟩ :=
        ih s1 (i + 1) (Nat.succ_le_of_lt hlt) hlen1 hmem1
      have htake : k - i = (k - (i + 1)) + 1 := by omega
      have htake2 : (l :: rest).take (k - i) = l :: rest.take (k - (i + 1)) := by
        rw [htake, List.take_succ_cons]
      have htake3 : (l :: rest).take (k - i + 1) = l :: rest.take (k - (i + 1) + 1) := by
        rw [htake, List.take_succ_cons]
      rw [hres]
      refine ⟨h1, ?_, ?_, by rw [h4]; rfl, by rw [h5]; rfl, by rw [h6]; rfl,
        by rw [h7]; rfl, by rw [h8]; rfl, by rw [h9]; rfl, ?_⟩
      · rw [htake2, List.map_cons, h2]
      · intro pid
        rw [htake2, List.map_cons]
        show getStock (order_service.decrement_loop [k] s1 (i + 1) rest).1 pid = _
        rw [h3 pid, hs1, getStock_setStock, net_cons]
        by_cases hpp : pid = l.prod_id
        · subst hpp
          rw [if_pos rfl, getStock_eq_some s l.prod_id prod hp]
          simp [Int.sub_sub]
        · rw [if_neg hpp]
          have : (l.prod_id == pid) = false := beq_eq_false_iff_ne.mpr (Ne.symm hpp)
          rw [this]
          simp
      · rw [htake3, List.map_cons, h10]

/-- With no delete fault injected, the item-delete pass completes, filters the
given item ids out of `order_items` one by one, and touches nothing else. -/
theorem delete_items_loop_nofault :
    ∀ (rows : List OrderItem) (s : Store) (i : Nat),
      (order_service.delete_items_loop [] s i rows).2.2 = true ∧
      (order_service.delete_items_loop [] s i rows).1.order_items =
        rows.foldl (fun L it => L.filter (fun r => r.item_id != it.item_id)) s.order_items ∧
      (order_service.delete_items_loop [] s i rows).1.customers = s.customers ∧
      (order_service.delete_items_loop [] s i rows).1.products = s.products ∧
      (order_service.delete_items_loop [] s i rows).1.orders = s.orders ∧
      (order_service.delete_items_loop [] s i rows).1.next_order_id = s.next_order_id ∧
      (order_service.delete_items_loop [] s i rows).1.next_item_id = s.next_item_id ∧
      (order_service.delete_items_loop [] s i rows).1.next_date = s.next_date := by
  intro rows
  induction rows with
  | nil =>
    intro s i
    exact ⟨rfl, rfl, rfl, rfl, rfl, rfl, rfl, rfl⟩
  | cons it rest ih =>
    intro s i
    have hnm : i ∉ ([] : List Nat) := List.not_mem_nil i
    set s1 : Store :=
      { s with order_items := s.order_items.filter (fun r => r.item_id != it.item_id) } with hs1
    have hres : order_service.delete_items_loop [] s i (it :: rest) =
        ((order_service.delete_items_loop [] s1 (i + 1) rest).1,
         order_service.Act.deleteItemAct it.item_id ::
           (order_service.delete_items_loop [] s1 (i + 1) rest).2.1,
         (order_service.delete_items_loop [] s1 (i + 1) rest).2.2) := by
      simp only [order_service.delete_items_loop, if_neg hnm]
    obtain ⟨h1, h2, h3, h4, h5, h6, h7, h8⟩ := ih s1 (i + 1)
    rw [hres]
    exact ⟨h1, by rw [h2]; rfl, by rw [h3], by rw [h4], by rw [h5],
      by rw [h6], by rw [h7], by rw [h8]⟩

/-- Deleting the freshly inserted item rows one by one restores the original
`order_items` list, provided all prior item ids are below the first fresh id. -/
theorem foldl_delete_build (oid : Nat) :
    ∀ (ls : List order_dao.LineItem) (iid : Nat) (old : List OrderItem),
      (∀ r ∈ old, r.item_id < iid) →
      (order_dao.build_item_rows oid iid ls).foldl
        (fun L it => L.filter (fun r => r.item_id != it.item_id))
        (old ++ order_dao.build_item_rows oid iid ls) = old := by
  intro ls
  induction ls with
  | nil =>
    intro iid old _
    simp [order_dao.build_item_rows]
  | cons l ls ih =>
    intro iid old hold
    simp only [order_dao.build_item_rows, List.foldl_cons]
    have hfilter : (old ++ (⟨iid, oid, l.prod_id, l.quantity, l.price⟩ : OrderItem) ::
        order_dao.build_item_rows oid (iid + 1) ls).filter (fun r => r.item_id != iid) =
        old ++ order_dao.build_item_rows oid (iid + 1) ls := by
      rw [List.filter_append, List.filter_cons]
      have hhead : ((⟨iid, oid, l.prod_id, l.quantity, l.price⟩ : OrderItem).item_id != iid) = false := by
        simp
      rw [hhead]
      have hold' : old.filter (fun r => r.item_id != iid) = old := by
        rw [List.filter_eq_self]
        intro r hr
        have := hold r hr
        simp
        omega
      have hrest : (order_dao.build_item_rows oid (iid + 1) ls).filter
          (fun r => r.item_id != iid) = order_dao.build_item_rows oid (iid + 1) ls := by
        rw [List.filter_eq_self]
        intro r hr
        have := build_item_rows_item_id_ge oid ls (iid + 1) r hr
        simp
        omega
      rw [hold', hrest]
      simp
    rw [hfilter]
    refine ih (iid + 1) old ?_
    intro r hr
    exact Nat.lt_succ_of_lt (hold r hr)

/-- Deleting the freshly appended order row restores the original list. -/
theorem filter_order_append (old : List Order) (x : Order)
    (h : ∀ o ∈ old, o.order_id ≠ x.order_id) :
    (old ++ [x]).filter (fun r => r.order_id != x.order_id) = old := by
  rw [List.filter_append]
  have h1 : old.filter (fun r => r.order_id != x.order_id) = old := by
    rw [List.filter_eq_self]
    intro r hr
    simpa using h r hr
  have h2 : [x].filter (fun r => r.order_id != x.order_id) = [] := by
    simp
  rw [h1, h2, List.append_nil]

/-- Soundness of the validation pass: every admitted line refers to an
existing product, captures that product's current price, and has a positive
quantity covered by the product's current stock. -/
theorem validate_items_sound (s : Store) :
    ∀ (items : List order_service.ReqItem) (lines : List order_dao.LineItem),
      order_service.validate_items s items = .ok lines →
      ∀ l ∈ lines, ∃ p, product_dao.get_product_by_id s l.prod_id = some p ∧
        l.price = p.price ∧ 0 < l.quantity ∧ l.quantity ≤ p.stock := by
  intro items
  induction items with
  | nil =>
    intro lines h l hl
    simp only [order_service.validate_items] at h
    obtain rfl := Except.ok.inj h
    cases hl
  | cons it rest ih =>
    intro lines h l hl
    simp only [order_service.validate_items] at h
    split at h
    · exact Except.noConfusion h
    · rename_i prod hp
      split at h
      · exact Except.noConfusion h
      · rename_i hq
        split at h
        · exact Except.noConfusion h
        · rename_i hs
          split at h
          · exact Except.noConfusion h
          · rename_i ls hrest
            obtain rfl := Except.ok.inj h
            rcases List.mem_cons.mp hl with hhead | htail
            · refine ⟨prod, ?_, ?_, ?_, ?_⟩
              · rw [hhead]
                show product_dao.get_product_by_id s prod.prod_id = some prod
                rw [get_product_id s it.prod_id prod hp]
                exact hp
              · rw [hhead]
              · rw [hhead]
                show (0 : Int) < it.quantity
                omega
              · rw [hhead]
                show it.quantity ≤ prod.stock
                omega
            · exact ih ls hrest l htail

/-- The value/error `create_order` returns, computed without the final store
and trace.  It depends only on the three mutation-phase fault components,
never on the compensation fault components. -/
def create_order_result (io ii : Bool) (fd : List Nat) (s : Store) (cid : Nat)
    (items : List order_service.ReqItem) :
    Except order_service.OrderError order_service.ComposedOrder :=
  match customer_dao.get_customer_by_id s cid with
  | none => .error .customerNotFound
  | some _ =>
    match order_service.validate_items s items with
    | .error e => .error e
    | .ok lines =>
      if io then .error (.createFailed .insertOrder)
      else
        match order_dao.create_order_record s cid (order_service.order_total lines) "PLACED" with
        | (none, _) => .error (.createFailed .orderRowMissing)
        | (some co, s1) =>
          if ii then .error (.createFailed .insertItems)
          else
            let ci := order_dao.create_order_items s1 co.order_id lines
            match (order_service.decrement_loop fd ci.2 0 lines).2.2.2 with
            | some cause => .error (.createFailed cause)
            | none =>
              .ok ⟨co.order_id, co.cust_id, co.status, co.order_date,
                   order_service.order_total lines, ci.1⟩

/-- The returned value of `create_order` is `create_order_result` applied to
the mutation-phase fault components only. -/
theorem create_order_result_eq (f : order_service.Faults) (s : Store) (cid : Nat)
    (items : List order_service.ReqItem) :
    (order_service.create_order f s cid items).result =
      create_order_result f.insertOrder f.insertItems f.decrementStock s cid items := by
  simp only [order_service.create_order, create_order_result]
  repeat' split
  all_goals rfl

/-- A fixture store: one registered customer, two products in stock, no
orders yet. -/
def demoStore : Store :=
  { customers := [⟨1, "Alice", "alice@example.com", "111", none⟩],
    products := [⟨7, "Widget", 10, 5⟩, ⟨8, "Gadget", 3, 5⟩],
    orders := [],
    order_items := [],
    next_order_id := 100,
    next_item_id := 200,
    next_date := 1 }

/-! ### Claim theorems -/

/-- C6: the value the caller receives from `create_order` depends only on the
mutation-phase fault components (order insert, item insert, stock decrements):
whenever a mutating step raises, the caller gets the wrapped original cause,
and failures injected into any compensation step (stock restore, item delete,
order delete) never change what propagates. -/
theorem c6_original_error_propagates (s : Store) (cid : Nat)
    (items : List order_service.ReqItem) (f g : order_service.Faults)
    (h1 : f.insertOrder = g.insertOrder) (h2 : f.insertItems = g.insertItems)
    (h3 : f.decrementStock = g.decrementStock) :
    (order_service.create_order f s cid items).result =
      (order_service.create_order g s cid items).result := by
  rw [create_order_result_eq, create_order_result_eq, h1, h2, h3]

/-- Witness for C6: a run whose second stock decrement fails reports the same
error whether or not the first compensating stock restore and the order delete
are also injected to fail. -/
theorem c6_original_error_propagates_witness :
    (order_service.create_order ⟨false, false, [1], [0], [], true⟩ demoStore 1
        [⟨7, 1⟩, ⟨8, 1⟩]).result =
      (order_service.create_order ⟨false, false, [1], [], [], false⟩ demoStore 1
        [⟨7, 1⟩, ⟨8, 1⟩]).result :=
  c6_original_error_propagates demoStore 1 [⟨7, 1⟩, ⟨8, 1⟩]
    ⟨false, false, [1], [0], [], true⟩ ⟨false, false, [1], [], [], false⟩ rfl rfl rfl

/-- C4: when `create_order` fails with a customer-not-found, product-not-found,
invalid-quantity or insufficient-stock error, the store is exactly as before
the call and no mutating action was even attempted. -/
theorem c4_validation_errors_no_mutation
    (f : order_service.Faults) (s : Store) (cid : Nat)
    (items : List order_service.ReqItem) (e : order_service.OrderError)
    (hres : (order_service.create_order f s cid items).result = .error e)
    (hval : e = .customerNotFound ∨ (∃ pid, e = .productNotFound pid) ∨
      e = .quantityNotPositive ∨ ∃ n a q, e = .outOfStock n a q) :
    (order_service.create_order f s cid items).store = s ∧
    (order_service.create_order f s cid items).acts = [] := by
  cases hc : customer_dao.get_customer_by_id s cid with
  | none =>
    constructor <;> simp [order_service.create_order, hc]
  | some c =>
    cases hv : order_service.validate_items s items with
    | error e2 =>
      constructor <;> simp [order_service.create_order, hc, hv]
    | ok lines =>
      exfalso
      rw [create_order_result_eq] at hres
      simp only [create_order_result, hc, hv] at hres
      have hcf : ∀ cause : order_service.MutStep, e ≠ .createFailed cause := by
        intro cause hcontra
        rcases hval with h | ⟨pid, h⟩ | h | ⟨n, a, q, h⟩ <;> rw [h] at hcontra <;>
          exact order_service.OrderError.noConfusion hcontra
      split at hres
      · exact hcf _ (Except.error.inj hres).symm
      · split at hres
        · exact hcf _ (Except.error.inj hres).symm
        · split at hres
          · exact hcf _ (Except.error.inj hres).symm
          · split at hres
            · exact hcf _ (Except.error.inj hres).symm
            · exact Except.noConfusion hres

/-- Witness for C4: a call for an unknown customer fails with
customer-not-found, leaving the fixture store untouched. -/
theorem c4_validation_errors_no_mutation_witness :
    (order_service.create_order order_service.noFaults demoStore 99 [⟨7, 1⟩]).store =
        demoStore ∧
    (order_service.create_order order_service.noFaults demoStore 99 [⟨7, 1⟩]).acts = [] :=
  c4_validation_errors_no_mutation order_service.noFaults demoStore 99 [⟨7, 1⟩]
    .customerNotFound (by decide) (Or.inl rfl)

theorem build_item_rows_length (oid : Nat) :
    ∀ (ls : List order_dao.LineItem) (iid : Nat),
      (order_dao.build_item_rows oid iid ls).length = ls.length := by
  intro ls
  induction ls with
  | nil => intro iid; rfl
  | cons l ls ih =>
    intro iid
    simp only [order_dao.build_item_rows, List.length_cons, ih (iid + 1)]

theorem getStock_products_eq {s t : Store} (h : s.products = t.products) (pid : Nat) :
    getStock s pid = getStock t pid := by
  unfold getStock product_dao.get_product_by_id
  rw [h]

/-- Reduction of `create_order` past the two successful insert steps: with a
well-formed store, a resolved customer and an admitted line list, the run is
the new order row, the new item rows, and the decrement loop (plus rollback
when the latter reports a failure). -/
theorem create_order_mutation (f : order_service.Faults) (s : Store) (cid : Nat)
    (items : List order_service.ReqItem) (c : Customer) (lines : List order_dao.LineItem)
    (hio : f.insertOrder = false) (hii : f.insertItems = false)
    (hwf : s.wf = true)
    (hc : customer_dao.get_customer_by_id s cid = some c)
    (hv : order_service.validate_items s items = .ok lines) :
    order_service.create_order f s cid items =
      (let nr : Order := ⟨s.next_order_id, cid, order_service.order_total lines, "PLACED", s.next_date⟩
       let rows := order_dao.build_item_rows s.next_order_id s.next_item_id lines
       let s2 : Store := ⟨s.customers, s.products, s.orders ++ [nr], s.order_items ++ rows,
                          s.next_order_id + 1, s.next_item_id + lines.length, s.next_date + 1⟩
       let d := order_service.decrement_loop f.decrementStock s2 0 lines
       match d.2.2.2 with
       | some cause =>
         ⟨.error (.createFailed cause),
          (order_service.compensate f d.1 d.2.2.1 rows (some nr)).1,
          .insertOrderAct :: .insertItemsAct ::
            (d.2.1 ++ (order_service.compensate f d.1 d.2.2.1 rows (some nr)).2)⟩
       | none =>
         ⟨.ok ⟨s.next_order_id, cid, "PLACED", s.next_date,
               order_service.order_total lines, rows⟩,
          d.1, .insertOrderAct :: .insertItemsAct :: d.2.1⟩) := by
  have hrec := create_order_record_wf s cid (order_service.order_total lines) "PLACED" hwf
  have hold1 : ∀ r ∈ ({ s with
      orders := s.orders ++ [⟨s.next_order_id, cid, order_service.order_total lines, "PLACED", s.next_date⟩],
      next_order_id := s.next_order_id + 1,
      next_date := s.next_date + 1 } : Store).order_items,
      (r.order_id == s.next_order_id) = false := by
    intro r hr
    have := (wf_items s hwf r hr).2
    simp only [beq_eq_false_iff_ne]
    omega
  have hitems := create_order_items_eq ({ s with
      orders := s.orders ++ [⟨s.next_order_id, cid, order_service.order_total lines, "PLACED", s.next_date⟩],
      next_order_id := s.next_order_id + 1,
      next_date := s.next_date + 1 } : Store) s.next_order_id lines hold1
  simp only [order_service.create_order, hc, hv, hio, hii, Bool.false_eq_true, if_false,
    hrec, hitems]

/-- C10: for an existing customer and an empty items list, `create_order`
succeeds: nothing rejects an empty order.  A PLACED order row with total 0 is
created, no item row is added, and no product stock changes. -/
theorem c10_empty_order_allowed (s : Store) (cid : Nat) (c : Customer)
    (hwf : s.wf = true) (hc : customer_dao.get_customer_by_id s cid = some c) :
    (order_service.create_order order_service.noFaults s cid []).result =
      .ok ⟨s.next_order_id, cid, "PLACED", s.next_date, 0, []⟩ ∧
    (order_service.create_order order_service.noFaults s cid []).store.order_items =
      s.order_items ∧
    (∀ pid, getStock (order_service.create_order order_service.noFaults s cid []).store pid =
      getStock s pid) ∧
    (order_service.create_order order_service.noFaults s cid []).store.orders =
      s.orders ++ [⟨s.next_order_id, cid, 0, "PLACED", s.next_date⟩] := by
  rw [create_order_mutation order_service.noFaults s cid [] c [] rfl rfl hwf hc rfl]
  refine ⟨rfl, ?_, fun pid => rfl, rfl⟩
  show s.order_items ++ order_dao.build_item_rows s.next_order_id s.next_item_id [] =
    s.order_items
  simp [order_dao.build_item_rows]

/-- Witness for C10: an empty order for the fixture customer succeeds with
total 0 and changes no stock. -/
theorem c10_empty_order_allowed_witness :
    (order_service.create_order order_service.noFaults demoStore 1 []).result =
      .ok ⟨100, 1, "PLACED", 1, 0, []⟩ ∧
    (order_service.create_order order_service.noFaults demoStore 1 []).store.order_items = [] ∧
    getStock (order_service.create_order order_service.noFaults demoStore 1 []).store 7 =
      getStock demoStore 7 :=
  have h := c10_empty_order_allowed demoStore 1 ⟨1, "Alice", "alice@example.com", "111", none⟩
    (by decide) (by decide)
  ⟨h.1, h.2.1, h.2.2.1 7⟩

/-- C5: every order `create_order` returns successfully has
`total_amount = sum(item.quantity * item.price)` over its returned items, each
item's captured price equals the product's unit price as read from the
pre-call store, and a later product price update leaves the order's stored
row and item rows (as fetched by `get_order`) unchanged. -/
theorem c5_total_and_price_capture (f : order_service.Faults) (s : Store) (cid : Nat)
    (items : List order_service.ReqItem) (co : order_service.ComposedOrder)
    (hwf : s.wf = true)
    (hres : (order_service.create_order f s cid items).result = .ok co) :
    co.total_amount = (co.items.map (fun it => it.quantity * it.price)).sum ∧
    (∀ it ∈ co.items, ∃ p, product_dao.get_product_by_id s it.prod_id = some p ∧
      it.price = p.price) ∧
    (∀ pid v, order_dao.get_order (product_dao.update_product
        (order_service.create_order f s cid items).store pid (.setPrice v)) co.order_id =
      order_dao.get_order (order_service.create_order f s cid items).store co.order_id) := by
  have hres2 : create_order_result f.insertOrder f.insertItems f.decrementStock s cid items =
      .ok co := by rw [← create_order_result_eq]; exact hres
  cases hc : customer_dao.get_customer_by_id s cid with
  | none =>
    simp only [create_order_result, hc] at hres2
    exact Except.noConfusion hres2
  | some c =>
    cases hv : order_service.validate_items s items with
    | error e =>
      simp only [create_order_result, hc, hv] at hres2
      exact Except.noConfusion hres2
    | ok lines =>
      have hrec := create_order_record_wf s cid (order_service.order_total lines) "PLACED" hwf
      have hold1 : ∀ r ∈ ({ s with
          orders := s.orders ++ [⟨s.next_order_id, cid, order_service.order_total lines, "PLACED", s.next_date⟩],
          next_order_id := s.next_order_id + 1,
          next_date := s.next_date + 1 } : Store).order_items,
          (r.order_id == s.next_order_id) = false := by
        intro r hr
        have := (wf_items s hwf r hr).2
        simp only [beq_eq_false_iff_ne]
        omega
      have hitems := create_order_items_eq ({ s with
          orders := s.orders ++ [⟨s.next_order_id, cid, order_service.order_total lines, "PLACED", s.next_date⟩],
          next_order_id := s.next_order_id + 1,
          next_date := s.next_date + 1 } : Store) s.next_order_id lines hold1
      simp only [create_order_result, hc, hv, hrec, hitems] at hres2
      split at hres2
      · exact Except.noConfusion hres2
      · split at hres2
        · exact Except.noConfusion hres2
        · split at hres2
          · exact Except.noConfusion hres2
          · obtain rfl := Except.ok.inj hres2
            refine ⟨(build_item_rows_sum s.next_order_id lines s.next_item_id).symm, ?_, ?_⟩
            · intro it hit
              obtain ⟨l, hl, hpid, hq, hpr⟩ :=
                build_item_rows_fields s.next_order_id lines s.next_item_id it hit
              obtain ⟨p, hp, hprice, _, _⟩ := validate_items_sound s items lines hv l hl
              exact ⟨p, by rw [hpid]; exact hp, by rw [hpr, hprice]⟩
            · intro pid v
              rfl

/-- Witness for C5: the spec scenario (2 units of product 7 at price 10)
yields total 20 with the captured price equal to the pre-call product price. -/
theorem c5_total_and_price_capture_witness :
    ((⟨100, 1, "PLACED", 1, 20, [⟨200, 100, 7, 2, 10⟩]⟩ :
        order_service.ComposedOrder)).total_amount =
      ((⟨100, 1, "PLACED", 1, 20, [⟨200, 100, 7, 2, 10⟩]⟩ :
        order_service.ComposedOrder).items.map (fun it => it.quantity * it.price)).sum ∧
    (∃ p, product_dao.get_product_by_id demoStore
        ((⟨200, 100, 7, 2, 10⟩ : OrderItem)).prod_id = some p ∧
      ((⟨200, 100, 7, 2, 10⟩ : OrderItem)).price = p.price) :=
  have h := c5_total_and_price_capture order_service.noFaults demoStore 1 [⟨7, 2⟩]
    ⟨100, 1, "PLACED", 1, 20, [⟨200, 100, 7, 2, 10⟩]⟩ (by decide) (by decide)
  ⟨h.1, h.2.1 ⟨200, 100, 7, 2, 10⟩ (List.mem_singleton.mpr rfl)⟩

/-- With no compensation fault injected, the rollback restores the ledger's
net quantities onto stocks, deletes the given item rows from `order_items`,
deletes the created order row, and leaves customers alone. -/
theorem compensate_nofault (f : order_service.Faults)
    (hfr : f.restoreStock = []) (hfd : f.deleteItem = []) (hfo : f.deleteOrder = false)
    (st : Store) (ledger : List (Nat × Int)) (rows : List OrderItem) (nr : Order) :
    (∀ pid, getStock (order_service.compensate f st ledger rows (some nr)).1 pid =
      (getStock st pid).map (fun x => x + net ledger pid)) ∧
    (order_service.compensate f st ledger rows (some nr)).1.order_items =
      rows.foldl (fun L it => L.filter (fun r => r.item_id != it.item_id)) st.order_items ∧
    (order_service.compensate f st ledger rows (some nr)).1.orders =
      st.orders.filter (fun x => x.order_id != nr.order_id) ∧
    (order_service.compensate f st ledger rows (some nr)).1.customers = st.customers := by
  obtain ⟨hR1, hR2, hR3, hR4, hR5, hR6, hR7, hR8, hR9⟩ := restore_loop_nofault ledger st 0
  simp only [order_service.compensate, hfr, hfd, hfo, hR1, eq_self_iff_true, if_true,
    Bool.false_eq_true, if_false]
  cases hrows : rows.isEmpty with
  | true =>
    obtain rfl : rows = [] := List.isEmpty_iff.mp hrows
    simp only [List.isEmpty_nil, eq_self_iff_true, if_true, List.foldl_nil]
    exact ⟨fun pid => hR2 pid, hR5, by rw [hR4], hR3⟩
  | false =>
    obtain ⟨hE1, hE2, hE3, hE4, hE5, hE6, hE7, hE8⟩ :=
      delete_items_loop_nofault rows (order_service.restore_loop [] st 0 ledger).1 0
    simp only [Bool.false_eq_true, if_false, hE1, eq_self_iff_true, if_true]
    refine ⟨?_, ?_, ?_, ?_⟩
    · intro pid
      show getStock (order_service.delete_items_loop []
          (order_service.restore_loop [] st 0 ledger).1 0 rows).1 pid = _
      rw [getStock_products_eq hE4 pid]
      exact hR2 pid
    · show (order_service.delete_items_loop []
          (order_service.restore_loop [] st 0 ledger).1 0 rows).1.order_items = _
      rw [hE2, hR5]
    · show ((order_service.delete_items_loop []
          (order_service.restore_loop [] st 0 ledger).1 0 rows).1.orders).filter
          (fun x => x.order_id != nr.order_id) = _
      rw [hE5, hR4]
    · show (order_service.delete_items_loop []
          (order_service.restore_loop [] st 0 ledger).1 0 rows).1.customers = _
      rw [hE3, hR3]

/-- C3: when the stock-decrement of iteration `k` fails after the order row
and item rows were created (the failing update itself changing nothing), the
rollback removes the order row and all item rows, restores every product's
stock to its pre-call value, and the caller receives the wrapped original
error instead of a success. -/
theorem c3_decrement_failure_rolls_back (s : Store) (cid : Nat)
    (items : List order_service.ReqItem) (c : Customer)
    (lines : List order_dao.LineItem) (k : Nat)
    (hwf : s.wf = true)
    (hc : customer_dao.get_customer_by_id s cid = some c)
    (hv : order_service.validate_items s items = .ok lines)
    (hk : k < lines.length) :
    (order_service.create_order ⟨false, false, [k], [], [], false⟩ s cid items).result =
      .error (.createFailed (.decrementStock k)) ∧
    (order_service.create_order ⟨false, false, [k], [], [], false⟩ s cid items).store.orders =
      s.orders ∧
    (order_service.create_order ⟨false, false, [k], [], [], false⟩ s cid items).store.order_items =
      s.order_items ∧
    (∀ pid, getStock
        (order_service.create_order ⟨false, false, [k], [], [], false⟩ s cid items).store pid =
      getStock s pid) := by
  have hrun := create_order_mutation ⟨false, false, [k], [], [], false⟩ s cid items c lines
    rfl rfl hwf hc hv
  have hmem : ∀ l ∈ lines, (product_dao.get_product_by_id
      (⟨s.customers, s.products,
        s.orders ++ [⟨s.next_order_id, cid, order_service.order_total lines, "PLACED", s.next_date⟩],
        s.order_items ++ order_dao.build_item_rows s.next_order_id s.next_item_id lines,
        s.next_order_id + 1, s.next_item_id + lines.length, s.next_date + 1⟩ : Store)
      l.prod_id).isSome = true := by
    intro l hl
    obtain ⟨p, hp, -, -, -⟩ := validate_items_sound s items lines hv l hl
    show (product_dao.get_product_by_id s l.prod_id).isSome = true
    rw [hp]
    rfl
  obtain ⟨hD1, hD2, hD3, hD4, hD5, hD6, hD7, hD8, hD9, hD10⟩ :=
    decrement_loop_fault k lines
      (⟨s.customers, s.products,
        s.orders ++ [⟨s.next_order_id, cid, order_service.order_total lines, "PLACED", s.next_date⟩],
        s.order_items ++ order_dao.build_item_rows s.next_order_id s.next_item_id lines,
        s.next_order_id + 1, s.next_item_id + lines.length, s.next_date + 1⟩ : Store)
      0 (Nat.zero_le k) (by simpa using hk) hmem
  simp only [Nat.sub_zero] at hD2 hD3
  obtain ⟨hC1, hC2, hC3, hC4⟩ := compensate_nofault ⟨false, false, [k], [], [], false⟩
    rfl rfl rfl
    (order_service.decrement_loop [k]
      (⟨s.customers, s.products,
        s.orders ++ [⟨s.next_order_id, cid, order_service.order_total lines, "PLACED", s.next_date⟩],
        s.order_items ++ order_dao.build_item_rows s.next_order_id s.next_item_id lines,
        s.next_order_id + 1, s.next_item_id + lines.length, s.next_date + 1⟩ : Store)
      0 lines).1
    ((lines.take k).map (fun l => (l.prod_id, l.quantity)))
    (order_dao.build_item_rows s.next_order_id s.next_item_id lines)
    ⟨s.next_order_id, cid, order_service.order_total lines, "PLACED", s.next_date⟩
  rw [hrun]
  simp only [hD1, hD2]
  refine And.intro trivial (And.intro ?_ (And.intro ?_ ?_))
  · rw [hC3, hD5]
    show (s.orders ++
        [(⟨s.next_order_id, cid, order_service.order_total lines, "PLACED", s.next_date⟩ : Order)]).filter
      (fun x => x.order_id !=
        (⟨s.next_order_id, cid, order_service.order_total lines, "PLACED", s.next_date⟩ : Order).order_id) =
      s.orders
    refine filter_order_append s.orders _ ?_
    intro o ho
    have := (wf_orders s hwf o ho).1
    show o.order_id ≠ s.next_order_id
    omega
  · rw [hC2, hD6]
    show (order_dao.build_item_rows s.next_order_id s.next_item_id lines).foldl
        (fun L it => L.filter (fun r => r.item_id != it.item_id))
        (s.order_items ++ order_dao.build_item_rows s.next_order_id s.next_item_id lines) =
      s.order_items
    exact foldl_delete_build s.next_order_id lines s.next_item_id s.order_items
      (fun r hr => (wf_items s hwf r hr).1)
  · intro pid
    rw [hC1 pid, hD3 pid]
    have hS2 : getStock
        (⟨s.customers, s.products,
          s.orders ++ [⟨s.next_order_id, cid, order_service.order_total lines, "PLACED", s.next_date⟩],
          s.order_items ++ order_dao.build_item_rows s.next_order_id s.next_item_id lines,
          s.next_order_id + 1, s.next_item_id + lines.length, s.next_date + 1⟩ : Store) pid =
        getStock s pid := rfl
    rw [hS2]
    cases hx : getStock s pid with
    | none => rfl
    | some x => simp [Int.sub_add_cancel]

/-- Witness for C3: with the second decrement injected to fail, the run on the
fixture store reports the wrapped decrement failure and leaves orders, items
and product 7's stock exactly as before the call. -/
theorem c3_decrement_failure_rolls_back_witness :
    (order_service.create_order ⟨false, false, [1], [], [], false⟩ demoStore 1
        [⟨7, 1⟩, ⟨8, 1⟩]).result = .error (.createFailed (.decrementStock 1)) ∧
    (order_service.create_order ⟨false, false, [1], [], [], false⟩ demoStore 1
        [⟨7, 1⟩, ⟨8, 1⟩]).store.orders = demoStore.orders ∧
    (order_service.create_order ⟨false, false, [1], [], [], false⟩ demoStore 1
        [⟨7, 1⟩, ⟨8, 1⟩]).store.order_items = demoStore.order_items ∧
    getStock (order_service.create_order ⟨false, false, [1], [], [], false⟩ demoStore 1
        [⟨7, 1⟩, ⟨8, 1⟩]).store 7 = getStock demoStore 7 :=
  have h := c3_decrement_failure_rolls_back demoStore 1 [⟨7, 1⟩, ⟨8, 1⟩]
    ⟨1, "Alice", "alice@example.com", "111", none⟩ [⟨7, 1, 10⟩, ⟨8, 1, 3⟩] 1
    (by decide) (by decide) (by decide) (by decide)
  ⟨h.1, h.2.1, h.2.2.1, h.2.2.2 7⟩

/-- C2 counterexample: second decrement fails, and the first compensating
stock restore is also injected to fail.  The order row and both item rows were
created and their deletes were not injected to fail, yet the trace shows the
rollback stopped right after the failing restore: no item delete and no order
delete was ever attempted, and the created rows are still in the store.  This
refutes the claim that each compensating action is attempted independently. -/
theorem c2_compensation_not_independent_cex :
    (order_service.create_order ⟨false, false, [1], [0], [], false⟩ demoStore 1
        [⟨7, 1⟩, ⟨8, 1⟩]).acts =
      [.insertOrderAct, .insertItemsAct, .decrementStockAct 7, .decrementStockAct 8,
       .restoreStockAct 7] ∧
    (order_service.create_order ⟨false, false, [1], [0], [], false⟩ demoStore 1
        [⟨7, 1⟩, ⟨8, 1⟩]).store.order_items =
      [⟨200, 100, 7, 1, 10⟩, ⟨201, 100, 8, 1, 3⟩] ∧
    (order_service.create_order ⟨false, false, [1], [0], [], false⟩ demoStore 1
        [⟨7, 1⟩, ⟨8, 1⟩]).store.orders =
      [⟨100, 1, 13, "PLACED", 1⟩] ∧
    getStock (order_service.create_order ⟨false, false, [1], [0], [], false⟩ demoStore 1
        [⟨7, 1⟩, ⟨8, 1⟩]).store 7 = some 4 := by
  refine ⟨?_, ?_, ?_, ?_⟩ <;> decide

/-- A restore failure on the first ledger entry aborts the whole rollback:
nothing after the failing restore runs, and the store is returned as it was
when compensation started. -/
theorem compensate_restore_abort (f : order_service.Faults)
    (hfr : f.restoreStock = [0]) (st : Store) (p0 : Nat) (q0 : Int)
    (Lrest : List (Nat × Int)) (rows : List OrderItem) (nr : Order)
    (prod0 : Product) (hp0 : product_dao.get_product_by_id st p0 = some prod0) :
    order_service.compensate f st ((p0, q0) :: Lrest) rows (some nr) =
      (st, [.restoreStockAct p0]) := by
  have hrl : order_service.restore_loop [0] st 0 ((p0, q0) :: Lrest) =
      (st, [order_service.Act.restoreStockAct p0], false) := by
    simp only [order_service.restore_loop, hp0]
    rw [if_pos (List.mem_singleton.mpr rfl)]
  simp only [order_service.compensate, hfr, hrl, Bool.false_eq_true, if_false]

/-- C2 (amended): the three compensating actions run inside one try/except; a
failure raised while restoring stock is swallowed (the wrapped original error
still propagates) but stops the rest of the rollback, so the item deletes and
the order delete are never attempted and the created rows stay behind. -/
theorem c2_compensation_single_guard (s : Store) (cid : Nat)
    (items : List order_service.ReqItem) (c : Customer)
    (lines : List order_dao.LineItem) (k : Nat)
    (hwf : s.wf = true)
    (hc : customer_dao.get_customer_by_id s cid = some c)
    (hv : order_service.validate_items s items = .ok lines)
    (hk : k < lines.length) (hk1 : 1 ≤ k) :
    (order_service.create_order ⟨false, false, [k], [0], [], false⟩ s cid items).result =
      .error (.createFailed (.decrementStock k)) ∧
    (order_service.create_order ⟨false, false, [k], [0], [], false⟩ s cid items).store.orders =
      s.orders ++ [⟨s.next_order_id, cid, order_service.order_total lines, "PLACED", s.next_date⟩] ∧
    (order_service.create_order ⟨false, false, [k], [0], [], false⟩ s cid items).store.order_items =
      s.order_items ++ order_dao.build_item_rows s.next_order_id s.next_item_id lines ∧
    (∀ a ∈ (order_service.create_order ⟨false, false, [k], [0], [], false⟩ s cid items).acts,
      (∀ iid, a ≠ .deleteItemAct iid) ∧ ∀ oid, a ≠ .deleteOrderAct oid) := by
  have hrun := create_order_mutation ⟨false, false, [k], [0], [], false⟩ s cid items c lines
    rfl rfl hwf hc hv
  have hmem : ∀ l ∈ lines, (product_dao.get_product_by_id
      (⟨s.customers, s.products,
        s.orders ++ [⟨s.next_order_id, cid, order_service.order_total lines, "PLACED", s.next_date⟩],
        s.order_items ++ order_dao.build_item_rows s.next_order_id s.next_item_id lines,
        s.next_order_id + 1, s.next_item_id + lines.length, s.next_date + 1⟩ : Store)
      l.prod_id).isSome = true := by
    intro l hl
    obtain ⟨p, hp, -, -, -⟩ := validate_items_sound s items lines hv l hl
    show (product_dao.get_product_by_id s l.prod_id).isSome = true
    rw [hp]
    rfl
  obtain ⟨hD1, hD2, hD3, hD4, hD5, hD6, hD7, hD8, hD9, hD10⟩ :=
    decrement_loop_fault k lines
      (⟨s.customers, s.products,
        s.orders ++ [⟨s.next_order_id, cid, order_service.order_total lines, "PLACED", s.next_date⟩],
        s.order_items ++ order_dao.build_item_rows s.next_order_id s.next_item_id lines,
        s.next_order_id + 1, s.next_item_id + lines.length, s.next_date + 1⟩ : Store)
      0 (Nat.zero_le k) (by simpa using hk) hmem
  simp only [Nat.sub_zero] at hD2 hD3 hD10
  obtain ⟨l0, T, htake, hl0mem⟩ : ∃ l0 T, lines.take k = l0 :: T ∧ l0 ∈ lines := by
    cases lines with
    | nil => simp at hk
    | cons a t =>
      obtain ⟨j, rfl⟩ : ∃ j, k = j + 1 := ⟨k - 1, by omega⟩
      exact ⟨a, t.take j, by simp [List.take_succ_cons], List.mem_cons_self a t⟩
  obtain ⟨prod0, hprod0⟩ : ∃ prod0, product_dao.get_product_by_id
      (order_service.decrement_loop [k]
        (⟨s.customers, s.products,
          s.orders ++ [⟨s.next_order_id, cid, order_service.order_total lines, "PLACED", s.next_date⟩],
          s.order_items ++ order_dao.build_item_rows s.next_order_id s.next_item_id lines,
          s.next_order_id + 1, s.next_item_id + lines.length, s.next_date + 1⟩ : Store)
        0 lines).1 l0.prod_id = some prod0 := by
    obtain ⟨p, hp, -, -, -⟩ := validate_items_sound s items lines hv l0 hl0mem
    have h1 := hD3 l0.prod_id
    have h2 : getStock
        (⟨s.customers, s.products,
          s.orders ++ [⟨s.next_order_id, cid, order_service.order_total lines, "PLACED", s.next_date⟩],
          s.order_items ++ order_dao.build_item_rows s.next_order_id s.next_item_id lines,
          s.next_order_id + 1, s.next_item_id + lines.length, s.next_date + 1⟩ : Store)
        l0.prod_id = some p.stock := getStock_eq_some _ _ p hp
    rw [h2] at h1
    unfold getStock at h1
    cases hfind : product_dao.get_product_by_id
        (order_service.decrement_loop [k]
          (⟨s.customers, s.products,
            s.orders ++ [⟨s.next_order_id, cid, order_service.order_total lines, "PLACED", s.next_date⟩],
            s.order_items ++ order_dao.build_item_rows s.next_order_id s.next_item_id lines,
            s.next_order_id + 1, s.next_item_id + lines.length, s.next_date + 1⟩ : Store)
          0 lines).1 l0.prod_id with
    | none => rw [hfind] at h1; exact Option.noConfusion h1
    | some prod0 => exact ⟨prod0, rfl⟩
  have hcomp := compensate_restore_abort ⟨false, false, [k], [0], [], false⟩ rfl
    (order_service.decrement_loop [k]
      (⟨s.customers, s.products,
        s.orders ++ [⟨s.next_order_id, cid, order_service.order_total lines, "PLACED", s.next_date⟩],
        s.order_items ++ order_dao.build_item_rows s.next_order_id s.next_item_id lines,
        s.next_order_id + 1, s.next_item_id + lines.length, s.next_date + 1⟩ : Store)
      0 lines).1 l0.prod_id l0.quantity (T.map (fun l => (l.prod_id, l.quantity)))
    (order_dao.build_item_rows s.next_order_id s.next_item_id lines)
    ⟨s.next_order_id, cid, order_service.order_total lines, "PLACED", s.next_date⟩
    prod0 hprod0
  rw [hrun]
  simp only [hD1, hD2, htake, List.map_cons, hcomp, hD10]
  refine And.intro trivial (And.intro ?_ (And.intro ?_ ?_))
  · rw [hD5]
  · rw [hD6]
  · intro a ha
    simp only [List.mem_cons, List.mem_append, List.mem_map, List.mem_singleton] at ha
    rcases ha with rfl | rfl | ⟨l, hl, rfl⟩ | rfl | h0
    · exact ⟨fun iid h => order_service.Act.noConfusion h,
             fun oid h => order_service.Act.noConfusion h⟩
    · exact ⟨fun iid h => order_service.Act.noConfusion h,
             fun oid h => order_service.Act.noConfusion h⟩
    · exact ⟨fun iid h => order_service.Act.noConfusion h,
             fun oid h => order_service.Act.noConfusion h⟩
    · exact ⟨fun iid h => order_service.Act.noConfusion h,
             fun oid h => order_service.Act.noConfusion h⟩
    · cases h0

/-- Witness for C2's amended theorem: the concrete aborted-rollback run. -/
theorem c2_compensation_single_guard_witness :
    (order_service.create_order ⟨false, false, [1], [0], [], false⟩ demoStore 1
        [⟨7, 1⟩, ⟨8, 1⟩]).result = .error (.createFailed (.decrementStock 1)) ∧
    (order_service.create_order ⟨false, false, [1], [0], [], false⟩ demoStore 1
        [⟨7, 1⟩, ⟨8, 1⟩]).store.orders =
      demoStore.orders ++ [⟨demoStore.next_order_id, 1,
        order_service.order_total [⟨7, 1, 10⟩, ⟨8, 1, 3⟩], "PLACED", demoStore.next_date⟩] :=
  have h := c2_compensation_single_guard demoStore 1 [⟨7, 1⟩, ⟨8, 1⟩]
    ⟨1, "Alice", "alice@example.com", "111", none⟩ [⟨7, 1, 10⟩, ⟨8, 1, 3⟩] 1
    (by decide) (by decide) (by decide) (by decide) (by decide)
  ⟨h.1, h.2.1⟩

/-- The stock-restoring fold of `cancel_order` adds each item's quantity back
onto the product's current stock and touches nothing but products. -/
theorem cancel_restock_foldl :
    ∀ (its : List OrderItem) (s : Store),
      (∀ pid, getStock (its.foldl (fun st it =>
          match product_dao.get_product_by_id st it.prod_id with
          | none => st
          | some prod =>
            product_dao.update_product st it.prod_id (.setStock (prod.stock + it.quantity))) s) pid =
        (getStock s pid).map (fun x => x + netItems its pid)) ∧
      (its.foldl (fun st it =>
          match product_dao.get_product_by_id st it.prod_id with
          | none => st
          | some prod =>
            product_dao.update_product st it.prod_id (.setStock (prod.stock + it.quantity))) s).orders =
        s.orders ∧
      (its.foldl (fun st it =>
          match product_dao.get_product_by_id st it.prod_id with
          | none => st
          | some prod =>
            product_dao.update_product st it.prod_id (.setStock (prod.stock + it.quantity))) s).order_items =
        s.order_items ∧
      (its.foldl (fun st it =>
          match product_dao.get_product_by_id st it.prod_id with
          | none => st
          | some prod =>
            product_dao.update_product st it.prod_id (.setStock (prod.stock + it.quantity))) s).customers =
        s.customers := by
  intro its
  induction its with
  | nil =>
    intro s
    refine ⟨?_, rfl, rfl, rfl⟩
    intro pid
    cases h : getStock s pid <;> simp [netItems, h]
  | cons it rest ih =>
    intro s
    simp only [List.foldl_cons]
    cases hp : product_dao.get_product_by_id s it.prod_id with
    | none =>
      obtain ⟨h1, h2, h3, h4⟩ := ih s
      simp only [hp]
      refine ⟨?_, h2, h3, h4⟩
      intro pid
      rw [h1 pid, netItems_cons]
      by_cases hpp : it.prod_id = pid
      · rw [getStock_eq_none s pid (hpp ▸ hp)]
        rfl
      · have : (it.prod_id == pid) = false := beq_eq_false_iff_ne.mpr hpp
        rw [this]
        simp
    | some prod =>
      simp only [hp]
      obtain ⟨h1, h2, h3, h4⟩ :=
        ih (product_dao.update_product s it.prod_id (.setStock (prod.stock + it.quantity)))
      refine ⟨?_, by rw [h2]; rfl, by rw [h3]; rfl, by rw [h4]; rfl⟩
      intro pid
      rw [h1 pid, getStock_setStock, netItems_cons]
      by_cases hpp : pid = it.prod_id
      · subst hpp
        rw [if_pos rfl, getStock_eq_some s it.prod_id prod hp]
        simp [Int.add_assoc]
      · rw [if_neg hpp]
        have : (it.prod_id == pid) = false := beq_eq_false_iff_ne.mpr (Ne.symm hpp)
        rw [this]
        simp

/-- After the status update, the re-read in `update_order_status` returns the
order row with the new status. -/
theorem update_order_status_found (s : Store) (oid : Nat) (st : String)
    (ord : Order) (hfind : s.orders.find? (fun o => o.order_id == oid) = some ord) :
    order_dao.update_order_status s oid st =
      (some { ord with status := st },
       { s with orders := s.orders.map (fun o =>
          if o.order_id == oid then { o with status := st } else o) }) := by
  unfold order_dao.update_order_status
  simp only [Prod.mk.injEq]
  refine ⟨?_, trivial⟩
  have hpred : ∀ x : Order,
      (((if x.order_id == oid then { x with status := st } else x) : Order).order_id == oid) =
        (x.order_id == oid) := by
    intro x
    by_cases h : x.order_id == oid <;> simp [h]
  rw [find?_map_of_pred _ _ hpred s.orders, hfind]
  have hb : (ord.order_id == oid) = true := by
    have := List.find?_some hfind
    simpa using this
  simp only [Option.map_some']
  rw [if_pos hb]

/-- C7: cancelling an order fetched in PLACED status adds each item's quantity
back onto the corresponding product's current stock (read-then-add) and sets
the order's status to CANCELLED; cancelling an order in any other status fails
with the invalid-state error and changes nothing. -/
theorem c7_cancel_order_spec (s : Store) (oid : Nat) (ord : Order) (its : List OrderItem)
    (hget : order_dao.get_order s oid = some (ord, its)) :
    (ord.status = "PLACED" →
      (order_service.cancel_order s oid).1 = .ok (some { ord with status := "CANCELLED" }) ∧
      (∀ pid, getStock (order_service.cancel_order s oid).2 pid =
        (getStock s pid).map (fun x => x + netItems its pid)) ∧
      (order_service.cancel_order s oid).2.orders.find? (fun o => o.order_id == oid) =
        some { ord with status := "CANCELLED" } ∧
      (order_service.cancel_order s oid).2.order_items = s.order_items) ∧
    (ord.status ≠ "PLACED" →
      order_service.cancel_order s oid = (.error .invalidState, s)) := by
  have hfind : s.orders.find? (fun o => o.order_id == oid) = some ord := by
    unfold order_dao.get_order at hget
    cases hf : s.orders.find? (fun o => o.order_id == oid) with
    | none => rw [hf] at hget; exact Option.noConfusion hget
    | some o =>
      rw [hf] at hget
      have h2 := Option.some.inj hget
      have h3 : o = ord := congrArg Prod.fst h2
      exact congrArg some h3
  constructor
  · intro hst
    have hbne : (ord.status != "PLACED") = false := by
      rw [hst]
      simp
    obtain ⟨hF1, hF2, hF3, hF4⟩ := cancel_restock_foldl its s
    have hupd := update_order_status_found
      (its.foldl (fun st it =>
        match product_dao.get_product_by_id st it.prod_id with
        | none => st
        | some prod =>
          product_dao.update_product st it.prod_id (.setStock (prod.stock + it.quantity))) s)
      oid "CANCELLED" ord (by rw [hF2]; exact hfind)
    simp only [order_service.cancel_order, hget, hbne, Bool.false_eq_true, if_false, hupd]
    refine ⟨trivial, ?_, ?_, ?_⟩
    · intro pid
      exact hF1 pid
    · show ((its.foldl (fun st it =>
          match product_dao.get_product_by_id st it.prod_id with
          | none => st
          | some prod =>
            product_dao.update_product st it.prod_id (.setStock (prod.stock + it.quantity))) s).orders.map
            (fun o => if o.order_id == oid then { o with status := "CANCELLED" } else o)).find?
          (fun o => o.order_id == oid) = some { ord with status := "CANCELLED" }
      have hpred : ∀ x : Order,
          (((if x.order_id == oid then { x with status := "CANCELLED" } else x) : Order).order_id == oid) =
            (x.order_id == oid) := by
        intro x
        by_cases h : x.order_id == oid <;> simp [h]
      rw [find?_map_of_pred _ _ hpred, hF2, hfind]
      have hb : (ord.order_id == oid) = true := by
        have := List.find?_some hfind
        simpa using this
      simp only [Option.map_some']
      rw [if_pos hb]
    · show (its.foldl (fun st it =>
          match product_dao.get_product_by_id st it.prod_id with
          | none => st
          | some prod =>
            product_dao.update_product st it.prod_id (.setStock (prod.stock + it.quantity))) s).order_items =
        s.order_items
      exact hF3
  · intro hst
    have hbne : (ord.status != "PLACED") = true := bne_iff_ne.mpr hst
    simp only [order_service.cancel_order, hget, hbne, if_true]

/-- A fixture store holding one PLACED order with a single item (2 units of
product 7). -/
def demoStoreWithOrder : Store :=
  { customers := [⟨1, "Alice", "alice@example.com", "111", none⟩],
    products := [⟨7, "Widget", 10, 3⟩],
    orders := [⟨50, 1, 20, "PLACED", 1⟩],
    order_items := [⟨60, 50, 7, 2, 10⟩],
    next_order_id := 51,
    next_item_id := 61,
    next_date := 2 }

/-- Witness for C7: cancelling the fixture PLACED order returns the CANCELLED
row and restores product 7's stock by the item quantity. -/
theorem c7_cancel_order_spec_witness :
    (order_service.cancel_order demoStoreWithOrder 50).1 =
      .ok (some ⟨50, 1, 20, "CANCELLED", 1⟩) ∧
    getStock (order_service.cancel_order demoStoreWithOrder 50).2 7 =
      (getStock demoStoreWithOrder 7).map
        (fun x => x + netItems [⟨60, 50, 7, 2, 10⟩] 7) :=
  have h := c7_cancel_order_spec demoStoreWithOrder 50 ⟨50, 1, 20, "PLACED", 1⟩
    [⟨60, 50, 7, 2, 10⟩] (by decide)
  have hp := h.1 rfl
  ⟨hp.1, hp.2.1 7⟩

/-- C8: `remove_customer` fails with the delete-conflict error and leaves the
store untouched whenever the customer owns at least one order (of any status);
for an existing customer with zero orders it deletes the record, returns the
pre-deletion row, and touches no other table. -/
theorem c8_remove_customer_spec (s : Store) (cid : Nat) (c : Customer)
    (hc : customer_dao.get_customer_by_id s cid = some c) :
    ((∃ o ∈ s.orders, o.cust_id = cid) →
      customer_service.remove_customer s cid =
        (.error (.deleteConflict (order_dao.list_orders_by_customer s cid).length), s)) ∧
    ((∀ o ∈ s.orders, o.cust_id ≠ cid) →
      (customer_service.remove_customer s cid).1 = .ok c ∧
      customer_dao.get_customer_by_id (customer_service.remove_customer s cid).2 cid = none ∧
      (customer_service.remove_customer s cid).2.orders = s.orders ∧
      (customer_service.remove_customer s cid).2.products = s.products ∧
      (customer_service.remove_customer s cid).2.order_items = s.order_items) := by
  constructor
  · intro hex
    have hne : (order_dao.list_orders_by_customer s cid).isEmpty = false := by
      obtain ⟨o, ho, hoc⟩ := hex
      cases hl : order_dao.list_orders_by_customer s cid with
      | cons a t => rfl
      | nil =>
        exfalso
        have hmem : o ∈ order_dao.list_orders_by_customer s cid := by
          unfold order_dao.list_orders_by_customer
          rw [List.mem_reverse, List.mem_filter]
          exact ⟨ho, by simp [hoc]⟩
        rw [hl] at hmem
        cases hmem
    simp only [customer_service.remove_customer, hc, hne, Bool.false_eq_true, if_false]
  · intro hall
    have hnil : order_dao.list_orders_by_customer s cid = [] := by
      unfold order_dao.list_orders_by_customer
      rw [List.reverse_eq_nil_iff, List.filter_eq_nil_iff]
      intro o ho
      simp [hall o ho]
    have hempty : (order_dao.list_orders_by_customer s cid).isEmpty = true := by
      rw [hnil]
      rfl
    have hdel1 : (customer_dao.delete_customer s cid).1 = some c := hc
    simp only [customer_service.remove_customer, hc, hempty, eq_self_iff_true, if_true, hdel1]
    refine ⟨trivial, ?_, rfl, rfl, rfl⟩
    show (s.customers.filter (fun x => x.cust_id != cid)).find?
      (fun x => x.cust_id == cid) = none
    rw [List.find?_eq_none]
    intro x hx
    have := (List.mem_filter.mp hx).2
    simp only [bne_iff_ne, ne_eq] at this
    simp [this]

/-- Witness for C8: deleting the fixture customer without orders succeeds and
removes the row; deleting the fixture customer that owns a PLACED order fails
with the delete-conflict error and leaves the store unchanged. -/
theorem c8_remove_customer_spec_witness :
    (customer_service.remove_customer demoStore 1).1 =
      .ok ⟨1, "Alice", "alice@example.com", "111", none⟩ ∧
    customer_dao.get_customer_by_id (customer_service.remove_customer demoStore 1).2 1 = none ∧
    customer_service.remove_customer demoStoreWithOrder 1 =
      (.error (.deleteConflict
        (order_dao.list_orders_by_customer demoStoreWithOrder 1).length),
       demoStoreWithOrder) :=
  have h1 := c8_remove_customer_spec demoStore 1
    ⟨1, "Alice", "alice@example.com", "111", none⟩ (by decide)
  have h2 := c8_remove_customer_spec demoStoreWithOrder 1
    ⟨1, "Alice", "alice@example.com", "111", none⟩ (by decide)
  have hs := h1.2 (by decide)
  ⟨hs.1, hs.2.1, h2.1 ⟨⟨50, 1, 20, "PLACED", 1⟩, by decide, rfl⟩⟩

/-- C9: `list_customers` returns `None` on every call: the DAO function it
delegates to executes the select but has no return statement, so the service
never yields a list of customer rows. -/
theorem c9_list_customers_none (s : Store) (limit : Nat) :
    customer_service.list_customers s limit = none := rfl

/-- C1 (failing-input evaluation): with product 7 holding stock 5, an order
whose two lines both request 3 units of product 7 passes the per-line
admission check, is created successfully, and leaves product 7 with stock -1:
order creation does drive stock negative on duplicate product lines. -/
theorem c1_duplicate_lines_negative_stock :
    (order_service.create_order order_service.noFaults demoStore 1
        [⟨7, 3⟩, ⟨7, 3⟩]).result =
      .ok ⟨100, 1, "PLACED", 1, 60,
        [⟨200, 100, 7, 3, 10⟩, ⟨201, 100, 7, 3, 10⟩]⟩ ∧
    getStock (order_service.create_order order_service.noFaults demoStore 1
        [⟨7, 3⟩, ⟨7, 3⟩]).store 7 = some (-1) := by
  constructor <;> decide

end Retail
